import Mathlib

/-!
Shallow embedding of the face-identity core of the ImageNerve backend:
the vector math of `FaceDetectionService.compute_similarity`, the enrollment
pipeline of `FaceService` (`set_user_profile_face_batch`,
`set_user_profile_from_embeddings`, `delete_profile_face`,
`find_photos_matching_profile`) and the clustering pipeline of
`FaceClusteringService` (`_normalize_embeddings`, `_compute_similarity_matrix`,
`_compute_distance_matrix`, `cluster_faces`).

Numpy float arithmetic is idealized as real arithmetic; a vector is a
`List ℝ`.  Database and image observations (the user's settings blob, the
face-embedding table, the photo table, decoded image measurements and the
external detector's output) are passed as explicit values and state.
-/

noncomputable section

namespace ImageNerve

/-- Dot product of two float vectors, as `np.dot` computes it on equal-length
1-D arrays (on unequal lengths the model truncates; the source never reaches
that case because it checks shapes first). -/
def dot (a b : List ℝ) : ℝ := (List.zipWith (fun x y => x * y) a b).sum

/-- Sum of squares of a vector, so that `np.linalg.norm a = Real.sqrt (sumSq a)`. -/
def sumSq (a : List ℝ) : ℝ := dot a a

/-- Euclidean norm, `np.linalg.norm`. -/
def norm2 (a : List ℝ) : ℝ := Real.sqrt (sumSq a)

/-- Embedding of `FaceDetectionService.compute_similarity`: returns `0.0`
when the two arrays are not both of length 512, returns `0.0` when either
norm is zero, and otherwise returns the cosine similarity.  The source wraps
the body in a catch-all `except` returning `0.0`, so the function never
raises. -/
def compute_similarity (a b : List ℝ) : ℝ :=
  if a.length ≠ 512 ∨ b.length ≠ 512 then 0
  else if norm2 a = 0 ∨ norm2 b = 0 then 0
  else dot a b / (norm2 a * norm2 b)

/-- Modelled from the spec: section 4.1's `cosineSimilarity` contract, under
which a caller passing vectors that are not both of length 512 gets a
`DimensionMismatch` error rather than a similarity value.  Stated only to be
compared against the source's `compute_similarity`. -/
def cosineSimilarity_specModel (a b : List ℝ) : Except String ℝ :=
  if a.length ≠ 512 ∨ b.length ≠ 512 then .error "DimensionMismatch"
  else if norm2 a = 0 ∨ norm2 b = 0 then .ok 0
  else .ok (dot a b / (norm2 a * norm2 b))


/-! ### Normalization, averaging and the adaptive threshold -/

/-- L2 normalization as the enrollment functions perform it: divide by the
norm only when it is positive (`if norm > 0: arr = arr / norm`). -/
def normalizePos (v : List ℝ) : List ℝ :=
  if 0 < norm2 v then v.map (fun x => x / norm2 v) else v

/-- Elementwise subtraction, numpy's broadcast `e - mean_embedding`. -/
def vsub (a b : List ℝ) : List ℝ := List.zipWith (fun x y => x - y) a b

/-- Elementwise addition. -/
def vadd (a b : List ℝ) : List ℝ := List.zipWith (fun x y => x + y) a b

/-- Elementwise sum of a stack of equal-length vectors. -/
def sumVecs : List (List ℝ) → List ℝ
  | [] => []
  | v :: vs =>
    match vs with
    | [] => v
    | _ :: _ => vadd v (sumVecs vs)

/-- Embedding of `np.mean(np.stack(vs, axis=0), axis=0)`: the elementwise
arithmetic mean. -/
def meanVec (vs : List (List ℝ)) : List ℝ :=
  (sumVecs vs).map (fun x => x / (vs.length : ℝ))

/-- The `intra` value of the enrollment functions: the arithmetic mean of the
Euclidean distances of each accepted embedding to the mean embedding
(`np.mean([np.linalg.norm(e - mean_embedding) for e in ...])`). -/
def spread (vs : List (List ℝ)) : ℝ :=
  ((vs.map fun v => norm2 (vsub v (meanVec vs))).sum) / (vs.length : ℝ)

/-- The adaptive threshold map of both enrollment functions:
`float(max(0.40, min(0.55, 0.45 + (intra - 0.2) * 0.2)))`. -/
def suggestedThreshold (intra : ℝ) : ℝ :=
  max 0.40 (min 0.55 (0.45 + (intra - 0.2) * 0.2))

/-- All vectors in the list share the head's length; when this fails,
`np.stack` raises and the enclosing try/except turns the call into a failure
result. -/
def uniformLengthB (vs : List (List ℝ)) : Bool :=
  vs.all fun v => v.length == (vs.headD []).length

/-! ### The user settings blob -/

/-- A value stored in the per-user settings JSON blob. -/
inductive SVal
  | vec (v : List ℝ)
  | num (x : ℝ)
  | str (s : String)

/-- A user's settings blob: key/value pairs (a Python dict keeps one value
per key; lookups take the first matching pair). -/
abbrev Settings := List (String × SVal)

/-- Dictionary lookup, `settings.get(k)`. -/
def Settings.get : Settings → String → Option SVal
  | [], _ => none
  | p :: t, k => if p.1 = k then some p.2 else Settings.get t k

/-- Dictionary removal, `settings.pop(k, None)`. -/
def Settings.pop : Settings → String → Settings
  | [], _ => []
  | p :: t, k => if p.1 = k then Settings.pop t k else p :: Settings.pop t k

/-- Dictionary assignment, `settings[k] = v`: replace the value in place when
the key exists, append otherwise. -/
def Settings.set : Settings → String → SVal → Settings
  | [], k, v => [(k, v)]
  | p :: t, k, v => if p.1 = k then (k, v) :: t else p :: Settings.set t k v


/-! ### Profile enrollment: quality gate and batch capture -/

/-- The bounding box of the first detected face, as the loop of
`set_user_profile_face_batch` receives it: a `[x1, y1, x2, y2]` list, an
`{x, y, w, h}` object, or anything else (width and height default to 0). -/
inductive BBoxData
  | list4 (x1 y1 x2 y2 : ℝ)
  | dict (x y w h : ℝ)
  | malformed

/-- Width and height the source extracts from the bounding box. -/
def bboxWH : BBoxData → ℝ × ℝ
  | .list4 x1 y1 x2 y2 => (x2 - x1, y2 - y1)
  | .dict _ _ w h => (w, h)
  | .malformed => (0, 0)

/-- First detected face of an enrollment image, as the external detector
reports it. -/
structure DetectedFace where
  bbox : BBoxData
  embedding : List ℝ

/-- Observable measurements of one decoded enrollment image: the blur
variance and mean brightness that the cv2 helpers compute, the pixel
dimensions, and the first face of the detector's result (`none` when
`faces_detected` is false). -/
structure DecodedImage where
  blur : ℝ
  brightness : ℝ
  width : ℕ
  height : ℕ
  firstFace : Option DetectedFace

/-- One enrollment image as the pipeline observes it: `none` when
`cv2.imdecode` fails. -/
abbrev ImageObs := Option DecodedImage

/-- One per-image diagnostic record appended by the loop. -/
structure Diag where
  index : ℕ
  accepted : Bool
  reason : Option String
  blur : Option ℝ
  brightness : Option ℝ
  face_area : Option ℝ

/-- The quality-gate failure reasons for one decoded image with a detected
face, in the order the source appends them. -/
def gateReasons (blur bright ratio : ℝ) : List String :=
  (if blur < 120 then ["blur_low"] else []) ++
  (if bright < 60 ∨ 200 < bright then ["illumination"] else []) ++
  (if ratio < 0.20 then ["face_too_small"] else [])

/-- Embedding of `face_area_ratio = (w*h) / max(1, (img_w * img_h))`. -/
def faceAreaRatio (w h : ℝ) (imgW imgH : ℕ) : ℝ :=
  (w * h) / ((max 1 (imgW * imgH) : ℕ) : ℝ)

/-- One iteration of the image loop of `set_user_profile_face_batch`: the
diagnostic appended for image number `idx` and, when every gate passes, the
accepted (normalized) embedding. -/
def processImage (idx : ℕ) (o : ImageObs) : Diag × Option (List ℝ) :=
  match o with
  | none => (⟨idx, false, some "invalid_image", none, none, none⟩, none)
  | some img =>
    match img.firstFace with
    | none =>
      (⟨idx, false, some "no_face", some img.blur, some img.brightness, none⟩,
        none)
    | some face =>
      let wh := bboxWH face.bbox
      let ratio := faceAreaRatio wh.1 wh.2 img.width img.height
      let reasons := gateReasons img.blur img.brightness ratio
      if reasons.isEmpty then
        (⟨idx, true, none, some img.blur, some img.brightness, some ratio⟩,
          some (normalizePos face.embedding))
      else
        (⟨idx, false, some (String.intercalate "," reasons), some img.blur,
            some img.brightness, some ratio⟩, none)

/-- All iterations of the loop, in order, paired with their image index. -/
def processAll (obs : List ImageObs) : List (Diag × Option (List ℝ)) :=
  obs.enum.map fun p => processImage p.1 p.2

/-- The `accepted_embeddings` list the loop builds. -/
def acceptedEmbeddings (obs : List ImageObs) : List (List ℝ) :=
  (processAll obs).filterMap Prod.snd

/-- The `diagnostics` list the loop builds. -/
def batchDiagnostics (obs : List ImageObs) : List Diag :=
  (processAll obs).map Prod.fst

/-- The dictionary either enrollment function returns. Missing keys of the
source's result dict are `none`. -/
structure EnrollResult where
  success : Bool
  accepted : Option ℕ := none
  rejected : Option ℕ := none
  diagnostics : Option (List Diag) := none
  suggested_threshold : Option ℝ := none
  message : Option String := none

/-- Embedding of `FaceService.set_user_profile_face_batch`, state-passing
over the user's settings blob.  The ragged-stack case (accepted embeddings of
unequal lengths, impossible for the real 512-float detector) raises inside
the outer try/except and surfaces as a failure result with no write. -/
def set_user_profile_face_batch (obs : List ImageObs) (s : Settings) :
    EnrollResult × Settings :=
  let diags := batchDiagnostics obs
  let acc := acceptedEmbeddings obs
  if acc.isEmpty then
    ({ success := false, diagnostics := some diags,
       message := some "No images passed quality gates" }, s)
  else if uniformLengthB acc then
    let mean := meanVec acc
    let thr := suggestedThreshold (spread acc)
    ({ success := true, accepted := some acc.length,
       rejected := some (obs.length - acc.length),
       diagnostics := some diags, suggested_threshold := some thr },
      (s.set "profile_face_embedding" (.vec mean)).set
        "profile_face_threshold" (.num thr))
  else
    ({ success := false, message := some "exception" }, s)

/-! ### Profile enrollment from pre-computed embeddings -/

/-- What `np.array(emb, dtype=np.float32)` yields for one externally supplied
embedding: a scalar (`ndim` 0), a flat vector (`ndim` 1) or a nested array
(`ndim` at least 2). -/
inductive NpArr
  | scalar (x : ℝ)
  | vec (v : List ℝ)
  | nested (rows : List (List ℝ))

/-- The flat vector of a 1-D array, and `none` for any other `ndim`
(the source's `if arr.ndim != 1: continue`). -/
def ndim1 : NpArr → Option (List ℝ)
  | .vec v => some v
  | _ => none

/-- The `vecs` list `set_user_profile_from_embeddings` builds: each 1-D
input, normalized when its norm is positive.  No length validation occurs. -/
def validVecs (embs : List NpArr) : List (List ℝ) :=
  embs.filterMap fun e => (ndim1 e).map normalizePos

/-- Embedding of `FaceService.set_user_profile_from_embeddings`, state-passing
over the user's settings blob. -/
def set_user_profile_from_embeddings (embs : List NpArr) (s : Settings) :
    EnrollResult × Settings :=
  if embs.isEmpty then
    ({ success := false, message := some "No embeddings provided" }, s)
  else
    let vecs := validVecs embs
    if vecs.isEmpty then
      ({ success := false, message := some "Invalid embeddings" }, s)
    else if uniformLengthB vecs then
      let mean := meanVec vecs
      let thr := suggestedThreshold (spread vecs)
      ({ success := true, accepted := some vecs.length,
         suggested_threshold := some thr },
        (s.set "profile_face_embedding" (.vec mean)).set
          "profile_face_threshold" (.num thr))
    else
      ({ success := false, message := some "exception" }, s)

/-! ### Profile deletion -/

/-- Result dict of `delete_profile_face`. -/
structure DeleteResult where
  success : Bool

/-- Embedding of `FaceService.delete_profile_face`.  The state is `none` when
the user row does not exist; a user whose settings blob is `None` or empty is
returned untouched (the source's `if not user or not user.settings`). -/
def delete_profile_face : Option Settings → DeleteResult × Option Settings
  | none => (⟨true⟩, none)
  | some s =>
    if s.isEmpty then (⟨true⟩, some s)
    else
      (⟨true⟩, some ((s.pop "profile_face_embedding").pop
        "profile_face_threshold"))

/-! ### Density-based clustering (`FaceClusteringService`) -/

section Clustering

variable {α : Type} [LinearOrder α]

/-- The eps-neighborhood of point `i` among points `0, …, n-1` under a
precomputed distance matrix: every `j` (the point itself included) with
`distM i j ≤ eps`. -/
def neighborsIdx (n : ℕ) (distM : ℕ → ℕ → α) (eps : α) (i : ℕ) : List ℕ :=
  (List.range n).filter fun j => distM i j ≤ eps

/-- Core-point test of DBSCAN: at least `minPts` points (itself included)
within distance `eps`. -/
def isCore (n : ℕ) (distM : ℕ → ℕ → α) (eps : α) (minPts : ℕ) (i : ℕ) :
    Bool :=
  minPts ≤ (neighborsIdx n distM eps i).length

/-- Cluster expansion of DBSCAN: consume the seed queue, labelling every
reachable point with cluster `c` and enqueueing the neighborhoods of newly
labelled core points.  In the working label list, `-2` marks an unvisited
point and `-1` noise; a point already carrying a cluster label is skipped.
Fuel bounds the loop (each step labels a point or shrinks the queue). -/
def expandCluster (adj : ℕ → List ℕ) (core : ℕ → Bool) :
    ℕ → List ℤ → List ℕ → ℤ → List ℤ
  | 0, labels, _, _ => labels
  | _ + 1, labels, [], _ => labels
  | fuel + 1, labels, q :: queue, c =>
    if labels.getD q (-2) = -2 ∨ labels.getD q (-2) = -1 then
      expandCluster adj core fuel (labels.set q c)
        (if core q then queue ++ adj q else queue) c
    else
      expandCluster adj core fuel labels queue c

/-- Outer loop of DBSCAN over the points in index order: an unvisited core
point starts cluster `c` and is expanded; an unvisited non-core point is
provisionally labelled noise. -/
def dbscanLoop (adj : ℕ → List ℕ) (core : ℕ → Bool) (fuel : ℕ) :
    List ℕ → List ℤ → ℤ → List ℤ
  | [], labels, _ => labels
  | p :: ps, labels, c =>
    if labels.getD p (-2) ≠ -2 then dbscanLoop adj core fuel ps labels c
    else if core p then
      dbscanLoop adj core fuel ps (expandCluster adj core fuel labels [p] c)
        (c + 1)
    else dbscanLoop adj core fuel ps (labels.set p (-1)) c

/-- Embedding of sklearn's `DBSCAN(eps, min_samples, metric='precomputed')
.fit_predict` on an `n × n` distance matrix: one label per point, `-1` for
noise, `0, 1, 2, …` in first-core-point-found order. -/
def dbscanLabels (n : ℕ) (distM : ℕ → ℕ → α) (eps : α) (minPts : ℕ) :
    List ℤ :=
  dbscanLoop (neighborsIdx n distM eps) (isCore n distM eps minPts)
    (n * n + n + 1) (List.range n) (List.replicate n (-2)) 0

end Clustering

/-- The cluster-construction loop of `cluster_faces`: for each distinct
non-noise label, collect the member face ids in index order and drop groups
smaller than `min_samples`. -/
def clustersFromLabels {ι : Type} (faceIds : List ι) (labels : List ℤ)
    (minSamples : ℕ) : List (List ι) :=
  ((labels.dedup.filter fun lbl => lbl ≠ -1).filterMap fun lbl =>
    let members := ((List.range faceIds.length).filter
        fun i => labels.getD i (-2) = lbl).filterMap faceIds.get?
    if members.length < minSamples then none else some members)

/-- Row normalization of `_normalize_embeddings`: divide each row by its
norm, a zero norm replaced by 1 (`norms[norms == 0] = 1`). -/
def l2row (v : List ℝ) : List ℝ :=
  v.map fun x => x / (if norm2 v = 0 then 1 else norm2 v)

/-- One entry of `_compute_similarity_matrix`: sklearn's `cosine_similarity`
row-normalizes its input again (zero rows stay zero) and takes dot products,
after `_normalize_embeddings` has already row-normalized. -/
def simEntry (vs : List (List ℝ)) (i j : ℕ) : ℝ :=
  dot (l2row (l2row (vs.getD i []))) (l2row (l2row (vs.getD j [])))

/-- One entry of `_compute_distance_matrix`: `1 - similarity`, the diagonal
then overwritten with 0 by `np.fill_diagonal`. -/
def distEntry (vs : List (List ℝ)) (i j : ℕ) : ℝ :=
  if i = j then 0 else 1 - simEntry vs i j

/-- Embedding of `FaceClusteringService.cluster_faces` from the point where
the user's face rows `(id, embedding)` have been fetched: fewer than 2 faces
yields no clusters (the insufficient-data result); otherwise DBSCAN labels
over the cosine distance matrix feed the cluster-construction loop.  The
returned clusters are the `face_ids` lists written to the database after the
user's old clusters are deleted. -/
def cluster_faces (faces : List (ℕ × List ℝ)) (eps : ℝ) (minSamples : ℕ) :
    List (List ℕ) :=
  if faces.length < 2 then []
  else
    clustersFromLabels (faces.map Prod.fst)
      (dbscanLabels faces.length
        (fun i j => distEntry (faces.map Prod.snd) i j) eps minSamples)
      minSamples

/-! ### Corpus-wide profile matching -/

/-- One row of the face-embedding table as `find_photos_matching_profile`
reads it: the source photo id and the stored embedding. -/
structure FaceRow where
  photoId : ℕ
  embedding : List ℝ

/-- One iteration of the face loop of `find_photos_matching_profile` over the
`score_by_photo` dict, modelled as a map from photo id to recorded score:
when the face's similarity to the profile reaches the threshold and beats the
photo's recorded score, it is recorded
(`if pid not in score_by_photo or sim > score_by_photo[pid]`). -/
def scoreStep (profile : List ℝ) (thr : ℝ) (acc : ℕ → Option ℝ)
    (f : FaceRow) : ℕ → Option ℝ :=
  let sim := compute_similarity profile f.embedding
  if thr ≤ sim then
    match acc f.photoId with
    | none => fun p => if p = f.photoId then some sim else acc p
    | some s0 =>
      if s0 < sim then fun p => if p = f.photoId then some sim else acc p
      else acc
  else acc

/-- The `score_by_photo` dict after the face loop. -/
def scoreByPhoto (profile : List ℝ) (thr : ℝ) (faces : List FaceRow) :
    ℕ → Option ℝ :=
  faces.foldl (scoreStep profile thr) fun _ => none

/-- Embedding of `FaceService.find_photos_matching_profile` from the point
where the profile embedding has been loaded.  `photoTable` is the photo table
in storage order; the face scan is capped at 5000 rows; the photo query keeps
the first `limit` matched photos in storage order, and only then sorts them
by recorded score, descending, with Python's stable sort. -/
def find_photos_matching_profile (profile : List ℝ) (faces : List FaceRow)
    (photoTable : List ℕ) (thr : ℝ) (limit : ℕ) : List ℕ :=
  let sb := scoreByPhoto profile thr (faces.take 5000)
  let kept := (photoTable.filter fun p => (sb p).isSome).take limit
  kept.mergeSort fun p q => (sb q).getD 0 ≤ (sb p).getD 0

/-! ### Auxiliary definitions used by the statements -/

/-- Running maximum of a list of scores, `none` for the empty list (the
semantics of the best-score bookkeeping in the face loop). -/
def listMax : List ℝ → Option ℝ
  | [] => none
  | x :: xs => some (xs.foldl max x)

/-- The similarities of the scanned faces of photo `p` that reach the
threshold, in scan order. -/
def qualSims (profile : List ℝ) (thr : ℝ) (p : ℕ) (faces : List FaceRow) :
    List ℝ :=
  (faces.filter fun f =>
      decide (f.photoId = p) &&
      decide (thr ≤ compute_similarity profile f.embedding)).map
    fun f => compute_similarity profile f.embedding

/-- A 512-float unit vector: 1 followed by 511 zeros. -/
def e1 : List ℝ := 1 :: List.replicate 511 0

/-- A 512-float vector of norm 5 whose dot product with `e1` is 3. -/
def v34 : List ℝ := 3 :: 4 :: List.replicate 510 0

/-- Two face rows: photo 1 carries a face of similarity 3/5 to `e1`, photo 2
a face of similarity 1. -/
def cexFaces : List FaceRow := [⟨1, v34⟩, ⟨2, e1⟩]

/-- One sharp, well-lit enrollment image whose detected face fills the frame
and embeds to `e1`. -/
def demoObs : List ImageObs :=
  [some ⟨150, 100, 100, 100, some ⟨.list4 0 0 100 100, e1⟩⟩]

/-- Two faces with identical one-dimensional embeddings, for a concrete
clustering run. -/
def demoFaces : List (ℕ × List ℝ) := [(0, [1]), (1, [1])]

/-! ### Vector-math and settings lemmas -/

@[simp]
theorem dot_nil_left (b : List ℝ) : dot [] b = 0 := rfl

@[simp]
theorem dot_nil_right (a : List ℝ) : dot a [] = 0 := by
  cases a <;> rfl

@[simp]
theorem dot_cons (x y : ℝ) (a b : List ℝ) :
    dot (x :: a) (y :: b) = x * y + dot a b := by
  simp [dot]

theorem dot_comm (a b : List ℝ) : dot a b = dot b a := by
  induction a generalizing b with
  | nil => simp
  | cons x a ih =>
    cases b with
    | nil => simp
    | cons y b => simp [ih, mul_comm]

@[simp]
theorem sumSq_nil : sumSq [] = 0 := rfl

@[simp]
theorem sumSq_cons (x : ℝ) (a : List ℝ) : sumSq (x :: a) = x * x + sumSq a := by
  simp [sumSq]

theorem sumSq_nonneg (a : List ℝ) : 0 ≤ sumSq a := by
  induction a with
  | nil => simp
  | cons x a ih => simpa using add_nonneg (mul_self_nonneg x) ih

theorem norm2_nonneg (a : List ℝ) : 0 ≤ norm2 a := Real.sqrt_nonneg _

theorem norm2_sq (a : List ℝ) : norm2 a ^ 2 = sumSq a :=
  Real.sq_sqrt (sumSq_nonneg a)

theorem norm2_eq_zero_iff (a : List ℝ) : norm2 a = 0 ↔ sumSq a = 0 := by
  constructor
  · intro h
    have := norm2_sq a
    rw [h] at this
    simpa using this.symm
  · intro h
    simp [norm2, h]

@[simp]
theorem dot_replicate_zero_left (n : ℕ) (b : List ℝ) :
    dot (List.replicate n 0) b = 0 := by
  induction n generalizing b with
  | zero => simp
  | succ n ih =>
    cases b with
    | nil => simp
    | cons y b => simp [List.replicate_succ, ih]

theorem sumSq_eq_sum_getD (a : List ℝ) :
    sumSq a = ∑ i ∈ Finset.range a.length, (a.getD i 0) ^ 2 := by
  induction a with
  | nil => simp
  | cons x a ih =>
    rw [sumSq_cons, ih, List.length_cons, Finset.sum_range_succ']
    simp [sq, add_comm]

theorem dot_eq_sum_getD (a b : List ℝ) :
    dot a b = ∑ i ∈ Finset.range (min a.length b.length),
      (a.getD i 0) * (b.getD i 0) := by
  induction a generalizing b with
  | nil => simp
  | cons x a ih =>
    cases b with
    | nil => simp
    | cons y b =>
      rw [dot_cons, ih, List.length_cons, List.length_cons,
        Nat.succ_min_succ, Finset.sum_range_succ']
      simp [add_comm]

/-- Cauchy–Schwarz for the list dot product. -/
theorem dot_sq_le (a b : List ℝ) : (dot a b) ^ 2 ≤ sumSq a * sumSq b := by
  set m := min a.length b.length with hm
  have h1 : (dot a b) ^ 2 ≤
      (∑ i ∈ Finset.range m, (a.getD i 0) ^ 2) *
      (∑ i ∈ Finset.range m, (b.getD i 0) ^ 2) := by
    rw [dot_eq_sum_getD, ← hm]
    exact Finset.sum_mul_sq_le_sq_mul_sq _ _ _
  have h2 : (∑ i ∈ Finset.range m, (a.getD i 0) ^ 2) ≤ sumSq a := by
    rw [sumSq_eq_sum_getD]
    exact Finset.sum_le_sum_of_subset_of_nonneg
      (Finset.range_subset.2 (hm ▸ min_le_left _ _))
      (fun i _ _ => sq_nonneg _)
  have h3 : (∑ i ∈ Finset.range m, (b.getD i 0) ^ 2) ≤ sumSq b := by
    rw [sumSq_eq_sum_getD]
    exact Finset.sum_le_sum_of_subset_of_nonneg
      (Finset.range_subset.2 (hm ▸ min_le_right _ _))
      (fun i _ _ => sq_nonneg _)
  have ha : 0 ≤ ∑ i ∈ Finset.range m, (a.getD i 0) ^ 2 :=
    Finset.sum_nonneg fun i _ => sq_nonneg _
  have hb : 0 ≤ ∑ i ∈ Finset.range m, (b.getD i 0) ^ 2 :=
    Finset.sum_nonneg fun i _ => sq_nonneg _
  calc (dot a b) ^ 2 ≤ _ := h1
    _ ≤ sumSq a * sumSq b := mul_le_mul h2 h3 hb (sumSq_nonneg a)

theorem abs_dot_le (a b : List ℝ) : |dot a b| ≤ norm2 a * norm2 b := by
  have h := dot_sq_le a b
  have hnn : 0 ≤ norm2 a * norm2 b := mul_nonneg (norm2_nonneg a) (norm2_nonneg b)
  have hsq : (norm2 a * norm2 b) ^ 2 = sumSq a * sumSq b := by
    rw [mul_pow, norm2_sq, norm2_sq]
  have hpow : |dot a b| ^ 2 ≤ (norm2 a * norm2 b) ^ 2 := by
    rw [sq_abs, hsq]; exact h
  have := Real.sqrt_le_sqrt hpow
  rwa [Real.sqrt_sq (abs_nonneg _), Real.sqrt_sq hnn] at this

theorem Settings.get_set_self (s : Settings) (k : String) (v : SVal) :
    (s.set k v).get k = some v := by
  induction s with
  | nil => simp [Settings.set, Settings.get]
  | cons p t ih =>
    by_cases hp : p.1 = k
    · simp [Settings.set, Settings.get, hp]
    · simp [Settings.set, Settings.get, hp, ih]

theorem Settings.get_set_other (s : Settings) (k k' : String) (v : SVal)
    (h : k ≠ k') : (s.set k v).get k' = s.get k' := by
  induction s with
  | nil => simp [Settings.set, Settings.get, h]
  | cons p t ih =>
    by_cases hp : p.1 = k
    · simp [Settings.set, Settings.get, hp, h]
    · simp [Settings.set, Settings.get, hp, ih]

theorem Settings.get_pop_self (s : Settings) (k : String) :
    (s.pop k).get k = none := by
  induction s with
  | nil => simp [Settings.pop, Settings.get]
  | cons p t ih =>
    by_cases hp : p.1 = k
    · simpa [Settings.pop, hp] using ih
    · simp [Settings.pop, Settings.get, hp, ih]

theorem Settings.get_pop_other (s : Settings) (k k' : String) (h : k ≠ k') :
    (s.pop k).get k' = s.get k' := by
  induction s with
  | nil => simp [Settings.pop, Settings.get]
  | cons p t ih =>
    by_cases hp : p.1 = k
    · have hk : p.1 ≠ k' := by rw [hp]; exact h
      simp [Settings.pop, Settings.get, hp, hk, ih, h]
    · by_cases hkp : p.1 = k'
      · simp [Settings.pop, Settings.get, hp, hkp, Ne.symm h]
      · simp [Settings.pop, Settings.get, hp, hkp, ih]

theorem Settings.pop_pop_self (s : Settings) (k : String) :
    (s.pop k).pop k = s.pop k := by
  induction s with
  | nil => rfl
  | cons p t ih =>
    by_cases hp : p.1 = k
    · simp [Settings.pop, hp, ih]
    · simp [Settings.pop, hp, ih]

theorem Settings.pop_comm (s : Settings) (k k' : String) :
    (s.pop k).pop k' = (s.pop k').pop k := by
  induction s with
  | nil => rfl
  | cons p t ih =>
    by_cases hp : p.1 = k
    · by_cases hq : p.1 = k'
      · have hkk : k = k' := hp ▸ hq
        simp [Settings.pop, hp, hq, hkk, ih]
      · have hkk : k ≠ k' := fun e => hq (hp.trans e)
        simp [Settings.pop, hp, hq, hkk, ih]
    · by_cases hq : p.1 = k'
      · have hkk : k' ≠ k := fun e => hp (hq.trans e)
        simp [Settings.pop, hp, hq, hkk, ih]
      · simp [Settings.pop, hp, hq, ih]

/-! ### Claim theorems -/

/-- C10: deleting a user's profile face removes only the
`profile_face_embedding` and `profile_face_threshold` keys from the user's
settings, leaves every other settings key unchanged, reports success even
when the user or the profile does not exist, and is idempotent. -/
theorem delete_profile_face_frame (st : Option Settings) :
    (delete_profile_face st).1.success = true
  ∧ (∀ k, k ≠ "profile_face_embedding" → k ≠ "profile_face_threshold" →
      ((delete_profile_face st).2.bind fun s => s.get k)
        = st.bind fun s => s.get k)
  ∧ ((delete_profile_face st).2.bind
      fun s => s.get "profile_face_embedding") = none
  ∧ ((delete_profile_face st).2.bind
      fun s => s.get "profile_face_threshold") = none
  ∧ delete_profile_face (delete_profile_face st).2 = delete_profile_face st := by
  cases st with
  | none => simp [delete_profile_face]
  | some s =>
    by_cases hs : s.isEmpty
    · have hnil : s = [] := by simpa using hs
      subst hnil
      simp [delete_profile_face, Settings.get]
    · have hget2 : ∀ k, k ≠ "profile_face_embedding" →
          k ≠ "profile_face_threshold" →
          ((s.pop "profile_face_embedding").pop "profile_face_threshold").get k
            = s.get k := by
        intro k h1 h2
        rw [Settings.get_pop_other _ _ _ (Ne.symm h2),
          Settings.get_pop_other _ _ _ (Ne.symm h1)]
      have hkey1 :
          ((s.pop "profile_face_embedding").pop "profile_face_threshold").get
            "profile_face_embedding" = none := by
        rw [Settings.get_pop_other _ _ _ (by decide)]
        exact Settings.get_pop_self _ _
      have hkey2 :
          ((s.pop "profile_face_embedding").pop "profile_face_threshold").get
            "profile_face_threshold" = none := Settings.get_pop_self _ _
      have hcollapse :
          (((s.pop "profile_face_embedding").pop
              "profile_face_threshold").pop "profile_face_embedding").pop
            "profile_face_threshold"
          = (s.pop "profile_face_embedding").pop "profile_face_threshold" := by
        rw [Settings.pop_comm (s.pop "profile_face_embedding")
          "profile_face_threshold" "profile_face_embedding",
          Settings.pop_pop_self, Settings.pop_pop_self]
      have hidem :
          delete_profile_face
              (some ((s.pop "profile_face_embedding").pop
                "profile_face_threshold"))
            = (⟨true⟩, some ((s.pop "profile_face_embedding").pop
                "profile_face_threshold")) := by
        by_cases hpe :
            ((s.pop "profile_face_embedding").pop
              "profile_face_threshold").isEmpty
        · simp [delete_profile_face, hpe]
        · simp only [delete_profile_face]
          rw [if_neg hpe, hcollapse]
      have hstep : delete_profile_face (some s)
          = (⟨true⟩, some ((s.pop "profile_face_embedding").pop
              "profile_face_threshold")) := by
        simp only [delete_profile_face]
        rw [if_neg hs]
      refine ⟨by simp [hstep], ?_, ?_, ?_, ?_⟩
      · intro k h1 h2
        simp [hstep, hget2 k h1 h2]
      · simp [hstep, hkey1]
      · simp [hstep, hkey2]
      · rw [hstep]
        exact hidem

/-- C2 (amended): with both inputs of length 512, `compute_similarity`
returns 0.0 when either norm is zero and otherwise the cosine similarity
`dot(a,b) / (‖a‖ * ‖b‖)`, a value in `[-1, 1]`; with inputs not both of
length 512 it returns 0.0 instead of failing. -/
theorem compute_similarity_cases (a b : List ℝ) :
    ((a.length ≠ 512 ∨ b.length ≠ 512) → compute_similarity a b = 0)
  ∧ (a.length = 512 → b.length = 512 →
      ((norm2 a = 0 ∨ norm2 b = 0) → compute_similarity a b = 0)
    ∧ (norm2 a ≠ 0 → norm2 b ≠ 0 →
        compute_similarity a b = dot a b / (norm2 a * norm2 b)
      ∧ -1 ≤ compute_similarity a b ∧ compute_similarity a b ≤ 1)) := by
  refine ⟨fun h => by simp [compute_similarity, h], fun ha hb => ⟨?_, ?_⟩⟩
  · intro h
    simp [compute_similarity, ha, hb, h]
  · intro hna hnb
    have hval : compute_similarity a b = dot a b / (norm2 a * norm2 b) := by
      simp [compute_similarity, ha, hb, hna, hnb]
    have hpos : 0 < norm2 a * norm2 b :=
      mul_pos ((norm2_nonneg a).lt_of_ne (Ne.symm hna))
        ((norm2_nonneg b).lt_of_ne (Ne.symm hnb))
    have habs : |dot a b / (norm2 a * norm2 b)| ≤ 1 := by
      rw [abs_div, abs_of_pos hpos]
      exact div_le_one_of_le₀ (abs_dot_le a b) hpos.le
    have hb1 := abs_le.mp habs
    exact ⟨hval, by rw [hval]; exact hb1.1, by rw [hval]; exact hb1.2⟩

/-- C2 counterexample: on two length-1 vectors — not both of length 512 —
`compute_similarity` returns the similarity value 0.0; it does not fail,
while the spec's `cosineSimilarity` contract demands a `DimensionMismatch`
error there. -/
theorem compute_similarity_mismatch_returns_value :
    compute_similarity [1] [1] = 0
  ∧ cosineSimilarity_specModel [1] [1] = .error "DimensionMismatch" := by
  constructor
  · norm_num [compute_similarity]
  · norm_num [cosineSimilarity_specModel]

theorem sumSq_map_div (v : List ℝ) (c : ℝ) :
    sumSq (v.map fun x => x / c) = sumSq v / c ^ 2 := by
  induction v with
  | nil => simp
  | cons x t ih =>
    simp only [List.map_cons, sumSq_cons, ih, add_div, sq]
    congr 1
    rw [div_mul_div_comm]

theorem l2row_of_norm_zero (v : List ℝ) (h : norm2 v = 0) : l2row v = v := by
  simp [l2row, h]

theorem sumSq_l2row (v : List ℝ) (h : norm2 v ≠ 0) : sumSq (l2row v) = 1 := by
  rw [l2row, if_neg h, sumSq_map_div, norm2_sq]
  exact div_self fun hz => h (by simp [norm2_eq_zero_iff, hz])

theorem l2row_idem (v : List ℝ) : l2row (l2row v) = l2row v := by
  by_cases h : norm2 v = 0
  · rw [l2row_of_norm_zero v h, l2row_of_norm_zero v h]
  · have h1 : norm2 (l2row v) = 1 := by
      rw [norm2, sumSq_l2row v h, Real.sqrt_one]
    rw [l2row, h1]
    simp

theorem dot_self_eq_sumSq (v : List ℝ) : dot v v = sumSq v := rfl

/-- C8 (amended): the similarity matrix is symmetric; a diagonal entry is the
recomputed self-similarity of the normalized row, hence exactly 1 whenever
the vector has nonzero norm but 0 for a zero vector (the diagonal is not set
by construction); the distance matrix is `1 - M` elementwise with the
diagonal forced to exactly 0. -/
theorem similarity_distance_matrix_props (vs : List (List ℝ)) (i j : ℕ) :
    simEntry vs i j = simEntry vs j i
  ∧ (sumSq (vs.getD i []) ≠ 0 → simEntry vs i i = 1)
  ∧ (sumSq (vs.getD i []) = 0 → simEntry vs i i = 0)
  ∧ distEntry vs i i = 0
  ∧ (i ≠ j → distEntry vs i j = 1 - simEntry vs i j) := by
  refine ⟨dot_comm _ _, ?_, ?_, by simp [distEntry], fun h => by
    simp [distEntry, h]⟩
  · intro h
    have hn : norm2 (vs.getD i []) ≠ 0 := by
      rw [Ne, norm2_eq_zero_iff]; exact h
    rw [simEntry, l2row_idem, dot_self_eq_sumSq, sumSq_l2row _ hn]
  · intro h
    have hn : norm2 (vs.getD i []) = 0 := by rwa [norm2_eq_zero_iff]
    rw [simEntry, l2row_of_norm_zero _ hn, l2row_of_norm_zero _ hn,
      dot_self_eq_sumSq, h]

/-- C8 counterexample: on the single zero vector, the similarity matrix
diagonal entry is 0, not the claimed exact 1 — the diagonal is recomputed
from the vectors, not set by construction. -/
theorem similarity_matrix_zero_diag :
    simEntry [[0]] 0 0 = 0 ∧ ((0 : ℝ) ≠ 1) ∧ distEntry [[0]] 0 0 = 0 := by
  have hz : norm2 [(0 : ℝ)] = 0 := by
    rw [norm2_eq_zero_iff]; norm_num
  refine ⟨?_, by norm_num, by simp [distEntry]⟩
  have : ([[( 0 : ℝ)]].getD 0 []) = [(0 : ℝ)] := rfl
  rw [simEntry, this, l2row_of_norm_zero _ hz, l2row_of_norm_zero _ hz,
    dot_self_eq_sumSq]
  norm_num

theorem gateReasons_eq_nil (b br r : ℝ) :
    gateReasons b br r = [] ↔
      (120 ≤ b ∧ (60 ≤ br ∧ br ≤ 200) ∧ 0.20 ≤ r) := by
  unfold gateReasons
  by_cases h1 : b < 120
  · simp only [if_pos h1]
    constructor
    · intro h; simp at h
    · rintro ⟨hb, -⟩; exact absurd h1 (not_lt.mpr hb)
  · by_cases h2 : br < 60 ∨ 200 < br
    · simp only [if_neg h1, if_pos h2]
      constructor
      · intro h; simp at h
      · rintro ⟨-, ⟨hb1, hb2⟩, -⟩
        rcases h2 with h | h
        · exact absurd h (not_lt.mpr hb1)
        · exact absurd h (not_lt.mpr hb2)
    · by_cases h3 : r < 0.20
      · simp only [if_neg h1, if_neg h2, if_pos h3]
        constructor
        · intro h; simp at h
        · rintro ⟨-, -, hr⟩; exact absurd h3 (not_lt.mpr hr)
      · push_neg at h2
        simp [if_neg h1, if_neg h3, not_lt.mp h1, h2.1, h2.2, not_lt.mp h3,
          not_or, not_lt]

/-- C9: for an enrollment image with a detected face the gate accepts iff
blur variance is at least 120, mean brightness lies in [60, 200] and the
face-box area ratio is at least 0.20; on rejection every failing check
contributes its own reason, the three checks being evaluated independently
(the joined reason string lists each failure); a missing face is reported
with its own distinct reason `no_face`. -/
theorem quality_gate_props (idx : ℕ) (img : DecodedImage) :
    (∀ face, img.firstFace = some face →
      ((processImage idx (some img)).1.accepted = true ↔
        (120 ≤ img.blur ∧ (60 ≤ img.brightness ∧ img.brightness ≤ 200) ∧
          0.20 ≤ faceAreaRatio (bboxWH face.bbox).1 (bboxWH face.bbox).2
            img.width img.height))
    ∧ ((processImage idx (some img)).2.isSome =
          (processImage idx (some img)).1.accepted)
    ∧ ((processImage idx (some img)).1.accepted = false →
        (processImage idx (some img)).1.reason
          = some (String.intercalate ","
              ((if img.blur < 120 then ["blur_low"] else []) ++
               (if img.brightness < 60 ∨ 200 < img.brightness then
                  ["illumination"] else []) ++
               (if faceAreaRatio (bboxWH face.bbox).1 (bboxWH face.bbox).2
                    img.width img.height < 0.20 then
                  ["face_too_small"] else [])))))
  ∧ (img.firstFace = none →
      (processImage idx (some img)).1.accepted = false
      ∧ (processImage idx (some img)).1.reason = some "no_face") := by
  constructor
  · intro face hface
    by_cases hr : gateReasons img.blur img.brightness
        (faceAreaRatio (bboxWH face.bbox).1 (bboxWH face.bbox).2
          img.width img.height) = []
    · have hacc := (gateReasons_eq_nil _ _ _).mp hr
      refine ⟨?_, ?_, ?_⟩
      · simp [processImage, hface, hr, hacc]
      · simp [processImage, hface, hr]
      · intro hfalse
        rw [show ((processImage idx (some img)).1.accepted) = true by
          simp [processImage, hface, hr]] at hfalse
        exact absurd hfalse (by simp)
    · have hacc : ¬ (120 ≤ img.blur ∧ (60 ≤ img.brightness ∧
          img.brightness ≤ 200) ∧
          0.20 ≤ faceAreaRatio (bboxWH face.bbox).1 (bboxWH face.bbox).2
            img.width img.height) := fun h =>
        hr ((gateReasons_eq_nil _ _ _).mpr h)
      refine ⟨?_, ?_, ?_⟩
      · simp [processImage, hface, hr, hacc]
      · simp [processImage, hface, hr]
      · intro _
        simp only [processImage, hface]
        rw [if_neg (by simpa using hr)]
        rfl
  · intro hnone
    simp [processImage, hnone]

theorem batch_success_eq (obs : List ImageObs) (s : Settings)
    (h1 : acceptedEmbeddings obs ≠ [])
    (h2 : uniformLengthB (acceptedEmbeddings obs) = true) :
    set_user_profile_face_batch obs s =
      ({ success := true, accepted := some (acceptedEmbeddings obs).length,
         rejected := some (obs.length - (acceptedEmbeddings obs).length),
         diagnostics := some (batchDiagnostics obs),
         suggested_threshold :=
           some (suggestedThreshold (spread (acceptedEmbeddings obs))) },
        (s.set "profile_face_embedding"
            (.vec (meanVec (acceptedEmbeddings obs)))).set
          "profile_face_threshold"
          (.num (suggestedThreshold (spread (acceptedEmbeddings obs))))) := by
  have hne : (acceptedEmbeddings obs).isEmpty = false :=
    List.isEmpty_eq_false.mpr h1
  simp [set_user_profile_face_batch, hne, h2]

theorem from_embeddings_success_eq (embs : List NpArr) (s : Settings)
    (h1 : validVecs embs ≠ [])
    (h2 : uniformLengthB (validVecs embs) = true) :
    set_user_profile_from_embeddings embs s =
      ({ success := true, accepted := some (validVecs embs).length,
         suggested_threshold :=
           some (suggestedThreshold (spread (validVecs embs))) },
        (s.set "profile_face_embedding"
            (.vec (meanVec (validVecs embs)))).set
          "profile_face_threshold"
          (.num (suggestedThreshold (spread (validVecs embs))))) := by
  have hemb : embs.isEmpty = false := by
    rcases embs with _ | ⟨e, t⟩
    · exact absurd rfl h1
    · rfl
  have hne : (validVecs embs).isEmpty = false := List.isEmpty_eq_false.mpr h1
  simp [set_user_profile_from_embeddings, hemb, hne, h2]

/-- C1: for every enrollment that accepts at least one embedding — from
images or from pre-computed embeddings — the stored adaptive threshold is
exactly `clamp(0.45 + (spread - 0.2) * 0.2, 0.40, 0.55)` where `spread` is
the mean Euclidean distance of the accepted (normalized) embeddings to their
arithmetic mean; the threshold map always lands in `[0.40, 0.55]` and is
monotone in the spread. -/
theorem adaptive_threshold_props :
    (∀ (obs : List ImageObs) (s : Settings),
        acceptedEmbeddings obs ≠ [] →
        uniformLengthB (acceptedEmbeddings obs) = true →
        ((set_user_profile_face_batch obs s).2.get "profile_face_threshold")
          = some (.num (suggestedThreshold (spread (acceptedEmbeddings obs)))))
  ∧ (∀ (embs : List NpArr) (s : Settings),
        validVecs embs ≠ [] →
        uniformLengthB (validVecs embs) = true →
        ((set_user_profile_from_embeddings embs s).2.get
            "profile_face_threshold")
          = some (.num (suggestedThreshold (spread (validVecs embs)))))
  ∧ (∀ x : ℝ, 0.40 ≤ suggestedThreshold x ∧ suggestedThreshold x ≤ 0.55)
  ∧ (∀ x y : ℝ, x ≤ y → suggestedThreshold x ≤ suggestedThreshold y) := by
  refine ⟨?_, ?_, ?_, ?_⟩
  · intro obs s h1 h2
    rw [batch_success_eq obs s h1 h2]
    exact Settings.get_set_self _ _ _
  · intro embs s h1 h2
    rw [from_embeddings_success_eq embs s h1 h2]
    exact Settings.get_set_self _ _ _
  · intro x
    constructor
    · exact le_max_left _ _
    · exact max_le (by norm_num) (min_le_left _ _)
  · intro x y hxy
    exact max_le_max le_rfl (min_le_min le_rfl (by linarith))

/-- C5: for every enrollment batch with at least one accepted image, the
stored profile embedding is exactly the arithmetic mean of the accepted,
normalized embeddings — no re-normalization is applied after averaging. -/
theorem profile_embedding_is_mean (obs : List ImageObs) (s : Settings)
    (h1 : acceptedEmbeddings obs ≠ [])
    (h2 : uniformLengthB (acceptedEmbeddings obs) = true) :
    (set_user_profile_face_batch obs s).1.success = true
  ∧ (set_user_profile_face_batch obs s).1.accepted
      = some (acceptedEmbeddings obs).length
  ∧ (set_user_profile_face_batch obs s).1.rejected
      = some (obs.length - (acceptedEmbeddings obs).length)
  ∧ ((set_user_profile_face_batch obs s).2.get "profile_face_embedding")
      = some (.vec (meanVec (acceptedEmbeddings obs))) := by
  rw [batch_success_eq obs s h1 h2]
  refine ⟨rfl, rfl, rfl, ?_⟩
  rw [Settings.get_set_other _ _ _ _ (by decide), Settings.get_set_self]

theorem sumSq_replicate_zero (n : ℕ) : sumSq (List.replicate n (0 : ℝ)) = 0 :=
  dot_replicate_zero_left n _

theorem sumSq_e1 : sumSq e1 = 1 := by
  rw [e1, sumSq_cons, sumSq_replicate_zero]
  norm_num

theorem norm2_e1 : norm2 e1 = 1 := by rw [norm2, sumSq_e1, Real.sqrt_one]

theorem e1_length : e1.length = 512 := by
  rw [e1, List.length_cons, List.length_replicate]

theorem demo_ratio :
    faceAreaRatio (bboxWH (.list4 0 0 100 100)).1
      (bboxWH (.list4 0 0 100 100)).2 100 100 = 1 := by
  norm_num [faceAreaRatio, bboxWH]

theorem demo_reasons :
    gateReasons 150 100 (faceAreaRatio (bboxWH (.list4 0 0 100 100)).1
      (bboxWH (.list4 0 0 100 100)).2 100 100) = [] := by
  rw [demo_ratio]
  norm_num [gateReasons]

theorem processImage_demo :
    processImage 0 (some ⟨150, 100, 100, 100,
        some ⟨.list4 0 0 100 100, e1⟩⟩)
      = (⟨0, true, none, some 150, some 100,
          some (faceAreaRatio (bboxWH (.list4 0 0 100 100)).1
            (bboxWH (.list4 0 0 100 100)).2 100 100)⟩,
        some (normalizePos e1)) := by
  simp only [processImage]
  rw [if_pos (by rw [demo_reasons]; rfl)]

theorem acceptedEmbeddings_demoObs :
    acceptedEmbeddings demoObs = [normalizePos e1] := by
  have h0 : processAll demoObs
      = [processImage 0 (some ⟨150, 100, 100, 100,
          some ⟨.list4 0 0 100 100, e1⟩⟩)] := rfl
  rw [acceptedEmbeddings, h0, processImage_demo]
  rfl

/-- C5 witness: a concrete one-image enrollment whose image passes every
gate; the call succeeds and stores the mean of the accepted embeddings. -/
theorem profile_embedding_is_mean_inst :
    (set_user_profile_face_batch demoObs []).1.success = true
  ∧ (set_user_profile_face_batch demoObs []).1.accepted
      = some (acceptedEmbeddings demoObs).length
  ∧ (set_user_profile_face_batch demoObs []).1.rejected
      = some (demoObs.length - (acceptedEmbeddings demoObs).length)
  ∧ ((set_user_profile_face_batch demoObs []).2.get "profile_face_embedding")
      = some (.vec (meanVec (acceptedEmbeddings demoObs))) :=
  profile_embedding_is_mean demoObs []
    (by rw [acceptedEmbeddings_demoObs]; simp)
    (by rw [acceptedEmbeddings_demoObs]; simp [uniformLengthB])

theorem processImage_snd_none (idx : ℕ) (o : ImageObs)
    (h : (processImage idx o).2 = none) :
    (processImage idx o).1.index = idx
  ∧ (processImage idx o).1.accepted = false
  ∧ (processImage idx o).1.reason.isSome = true := by
  cases o with
  | none => exact ⟨rfl, rfl, rfl⟩
  | some img =>
    cases hf : img.firstFace with
    | none => simp [processImage, hf]
    | some face =>
      by_cases hr : (gateReasons img.blur img.brightness
          (faceAreaRatio (bboxWH face.bbox).1 (bboxWH face.bbox).2
            img.width img.height)).isEmpty
      · exact absurd h (by simp [processImage, hf, hr])
      · simp [processImage, hf, hr]

theorem batchDiagnostics_get? (obs : List ImageObs) (i : ℕ) :
    (batchDiagnostics obs).get? i
      = (obs.get? i).map fun o => (processImage i o).1 := by
  rw [batchDiagnostics, processAll, List.map_map, List.get?_eq_getElem?,
    List.getElem?_map, ← List.get?_eq_getElem?, List.get?_enum]
  cases obs.get? i <;> rfl

/-- C7: an enrollment batch in which no image passes the quality gate fails
with the no-acceptable-samples message, returns one diagnostic per supplied
image — carrying its index, `accepted = false` and a reason — and leaves the
stored settings unchanged. -/
theorem no_acceptable_samples_props (obs : List ImageObs) (s : Settings)
    (h : acceptedEmbeddings obs = []) :
    (set_user_profile_face_batch obs s).1.success = false
  ∧ (set_user_profile_face_batch obs s).1.message
      = some "No images passed quality gates"
  ∧ (set_user_profile_face_batch obs s).1.diagnostics
      = some (batchDiagnostics obs)
  ∧ (set_user_profile_face_batch obs s).2 = s
  ∧ (batchDiagnostics obs).length = obs.length
  ∧ ∀ i d, (batchDiagnostics obs).get? i = some d →
      d.index = i ∧ d.accepted = false ∧ d.reason.isSome = true := by
  have hemp : (acceptedEmbeddings obs).isEmpty = true := by simp [h]
  refine ⟨by simp [set_user_profile_face_batch, hemp],
    by simp [set_user_profile_face_batch, hemp],
    by simp [set_user_profile_face_batch, hemp],
    by simp [set_user_profile_face_batch, hemp],
    by simp [batchDiagnostics, processAll], ?_⟩
  intro i d hd
  rw [batchDiagnostics_get?] at hd
  cases ho : obs.get? i with
  | none => rw [ho] at hd; simp at hd
  | some o =>
    rw [ho] at hd
    simp only [Option.map_some'] at hd
    have hmem : processImage i o ∈ processAll obs := by
      have henum : obs.enum.get? i = some (i, o) := by
        rw [List.get?_enum, ho]; rfl
      exact List.mem_map.mpr ⟨(i, o), List.get?_mem henum, rfl⟩
    have hnone : (processImage i o).2 = none :=
      List.filterMap_eq_nil_iff.mp (h ▸ rfl : (processAll obs).filterMap
        Prod.snd = []) _ hmem
    obtain ⟨hi, ha, hr⟩ := processImage_snd_none i o hnone
    have hdd : (processImage i o).1 = d := Option.some.inj hd
    exact hdd ▸ ⟨hi, ha, hr⟩

/-- C7 witness: a one-image batch whose image fails to decode; the call
fails, reports one rejection diagnostic and writes nothing. -/
theorem no_acceptable_samples_props_inst :
    (set_user_profile_face_batch [none] []).1.success = false
  ∧ (set_user_profile_face_batch [none] []).1.message
      = some "No images passed quality gates"
  ∧ (set_user_profile_face_batch [none] []).1.diagnostics
      = some (batchDiagnostics [none])
  ∧ (set_user_profile_face_batch [none] []).2 = []
  ∧ (batchDiagnostics [none]).length = ([none] : List ImageObs).length
  ∧ ∀ i d, (batchDiagnostics [none]).get? i = some d →
      d.index = i ∧ d.accepted = false ∧ d.reason.isSome = true :=
  no_acceptable_samples_props [none] []
    (by simp [acceptedEmbeddings, processAll, processImage])

theorem validVecs_length (embs : List NpArr) :
    (validVecs embs).length
      = (embs.filter fun e => (ndim1 e).isSome).length := by
  induction embs with
  | nil => rfl
  | cons e t ih =>
    cases e with
    | scalar x => simpa [validVecs, ndim1, List.filter] using ih
    | vec v => simpa [validVecs, ndim1, List.filter] using ih
    | nested rows => simpa [validVecs, ndim1, List.filter] using ih

/-- C6 (amended): `set_user_profile_from_embeddings` silently excludes
exactly the vectors that are not 1-dimensional — the length is never
validated, so a 1-D vector of any length is accepted — applies the fusion
and threshold computation to the remaining vectors, and fails without
writing any profile state when no vector remains. -/
theorem from_embeddings_filter_props (embs : List NpArr) (s : Settings) :
    (validVecs embs).length
      = (embs.filter fun e => (ndim1 e).isSome).length
  ∧ (validVecs embs = [] →
      (set_user_profile_from_embeddings embs s).1.success = false
    ∧ (set_user_profile_from_embeddings embs s).2 = s)
  ∧ (validVecs embs ≠ [] → uniformLengthB (validVecs embs) = true →
      (set_user_profile_from_embeddings embs s).1.success = true
    ∧ (set_user_profile_from_embeddings embs s).1.accepted
        = some (validVecs embs).length
    ∧ ((set_user_profile_from_embeddings embs s).2.get
          "profile_face_embedding")
        = some (.vec (meanVec (validVecs embs)))
    ∧ ((set_user_profile_from_embeddings embs s).2.get
          "profile_face_threshold")
        = some (.num (suggestedThreshold (spread (validVecs embs))))) := by
  refine ⟨validVecs_length embs, ?_, ?_⟩
  · intro hv
    cases embs with
    | nil => exact ⟨rfl, rfl⟩
    | cons e t =>
      have hvempty : (validVecs (e :: t)).isEmpty = true := by simp [hv]
      constructor
      · simp [set_user_profile_from_embeddings, hvempty]
      · simp [set_user_profile_from_embeddings, hvempty]
  · intro h1 h2
    rw [from_embeddings_success_eq embs s h1 h2]
    refine ⟨rfl, rfl, ?_, ?_⟩
    · rw [Settings.get_set_other _ _ _ _ (by decide), Settings.get_set_self]
    · exact Settings.get_set_self _ _ _

/-- C6 counterexample: a single 1-D vector of length 2 — which the claim
says must be silently excluded, leaving no valid vector and a failed call —
is accepted by the source: the call succeeds with `accepted = 1` and writes
a profile. -/
theorem from_embeddings_accepts_short_vector :
    (([1, 2] : List ℝ).length ≠ 512)
  ∧ (set_user_profile_from_embeddings [NpArr.vec [1, 2]] []).1.success = true
  ∧ (set_user_profile_from_embeddings [NpArr.vec [1, 2]] []).1.accepted
      = some 1
  ∧ ((set_user_profile_from_embeddings [NpArr.vec [1, 2]] []).2.get
        "profile_face_embedding")
      = some (.vec (meanVec [normalizePos [1, 2]])) := by
  have hv : validVecs [NpArr.vec [1, 2]] = [normalizePos [1, 2]] := rfl
  have hne : validVecs [NpArr.vec [1, 2]] ≠ [] := by rw [hv]; simp
  have hu : uniformLengthB (validVecs [NpArr.vec [1, 2]]) = true := by
    rw [hv]; simp [uniformLengthB]
  rw [from_embeddings_success_eq _ _ hne hu]
  refine ⟨by norm_num, rfl, by rw [hv]; rfl, ?_⟩
  rw [Settings.get_set_other _ _ _ _ (by decide), Settings.get_set_self, hv]

theorem clustersFromLabels_min_size {ι : Type} (faceIds : List ι)
    (labels : List ℤ) (m : ℕ) (C : List ι)
    (hC : C ∈ clustersFromLabels faceIds labels m) : m ≤ C.length := by
  simp only [clustersFromLabels, List.mem_filterMap] at hC
  obtain ⟨lbl, _, hsome⟩ := hC
  split at hsome
  · cases hsome
  · rename_i hge
    cases hsome
    exact le_of_not_lt hge

theorem clustersFromLabels_disjoint {ι : Type} (faceIds : List ι)
    (labels : List ℤ) (m : ℕ) (hids : faceIds.Nodup) :
    (clustersFromLabels faceIds labels m).Pairwise
      fun C D => ∀ x ∈ C, x ∉ D := by
  rw [clustersFromLabels]
  refine List.Pairwise.filterMap _ ?_
    ((List.nodup_dedup labels).filter _ : (labels.dedup.filter _).Nodup)
  intro a b hab C hC D hD x hxC hxD
  have hmem : ∀ (lbl : ℤ) (E : List ι),
      (if (((List.range faceIds.length).filter
          fun i => labels.getD i (-2) = lbl).filterMap faceIds.get?).length
          < m then none
        else some (((List.range faceIds.length).filter
          fun i => labels.getD i (-2) = lbl).filterMap faceIds.get?))
        = some E →
      ∀ y ∈ E, ∃ i, i < faceIds.length ∧ labels.getD i (-2) = lbl
        ∧ faceIds.get? i = some y := by
    intro lbl E hE y hy
    split at hE
    · cases hE
    · cases hE
      obtain ⟨i, hifil, higet⟩ := List.mem_filterMap.mp hy
      have hir := List.mem_filter.mp hifil
      exact ⟨i, List.mem_range.mp hir.1, by simpa using hir.2, higet⟩
  obtain ⟨i, hilen, hia, higet⟩ := hmem a C hC x hxC
  obtain ⟨j, hjlen, hjb, hjget⟩ := hmem b D hD x hxD
  have hij : i = j := by
    apply List.getElem?_inj hilen hids
    rw [← List.get?_eq_getElem?, ← List.get?_eq_getElem?, higet, hjget]
  exact hab (by rw [← hia, hij, hjb])

/-- C4: in every clustering run, every cluster written as a result has at
least `minSamples` member face ids, and — the stored face ids being distinct
— no face id appears in two different clusters of the run. -/
theorem cluster_faces_props (faces : List (ℕ × List ℝ)) (eps : ℝ)
    (minSamples : ℕ) (hids : (faces.map Prod.fst).Nodup) :
    List.Forall (fun C => minSamples ≤ C.length)
      (cluster_faces faces eps minSamples)
  ∧ (cluster_faces faces eps minSamples).Pairwise
      fun C D => ∀ x ∈ C, x ∉ D := by
  rw [cluster_faces]
  by_cases hlen : faces.length < 2
  · rw [if_pos hlen]
    exact ⟨trivial, List.Pairwise.nil⟩
  · rw [if_neg hlen]
    refine ⟨?_, clustersFromLabels_disjoint _ _ _ hids⟩
    rw [List.forall_iff_forall_mem]
    exact fun C hC => clustersFromLabels_min_size _ _ _ C hC

/-- C4 witness: a concrete two-face run with identical embeddings. -/
theorem cluster_faces_props_inst :
    List.Forall (fun C => 2 ≤ C.length) (cluster_faces demoFaces 0.3 2)
  ∧ (cluster_faces demoFaces 0.3 2).Pairwise
      fun C D => ∀ x ∈ C, x ∉ D :=
  cluster_faces_props demoFaces 0.3 2 (by norm_num [demoFaces])

theorem listMax_eq_none_iff (l : List ℝ) : listMax l = none ↔ l = [] := by
  cases l <;> simp [listMax]

theorem foldl_max_mem (xs : List ℝ) (x : ℝ) :
    xs.foldl max x = x ∨ xs.foldl max x ∈ xs := by
  induction xs generalizing x with
  | nil => exact Or.inl rfl
  | cons y ys ih =>
    rw [List.foldl_cons]
    rcases ih (max x y) with h | h
    · rcases max_choice x y with hm | hm
      · exact Or.inl (h.trans hm)
      · exact Or.inr (List.mem_cons.mpr (Or.inl (h.trans hm)))
    · exact Or.inr (List.mem_cons.mpr (Or.inr h))

theorem le_foldl_max (xs : List ℝ) (x : ℝ) :
    x ≤ xs.foldl max x ∧ ∀ y ∈ xs, y ≤ xs.foldl max x := by
  induction xs generalizing x with
  | nil => exact ⟨le_rfl, by simp⟩
  | cons y ys ih =>
    obtain ⟨h1, h2⟩ := ih (max x y)
    rw [List.foldl_cons]
    refine ⟨le_trans (le_max_left x y) h1, ?_⟩
    intro z hz
    rcases List.mem_cons.mp hz with rfl | hz
    · exact le_trans (le_max_right x z) h1
    · exact h2 z hz

theorem listMax_spec (l : List ℝ) (m : ℝ) (h : listMax l = some m) :
    m ∈ l ∧ ∀ x ∈ l, x ≤ m := by
  cases l with
  | nil => cases h
  | cons x xs =>
    have hm : xs.foldl max x = m := Option.some.inj h
    obtain ⟨h1, h2⟩ := le_foldl_max xs x
    constructor
    · rcases foldl_max_mem xs x with he | he
      · exact List.mem_cons.mpr (Or.inl (hm.symm.trans he))
      · exact List.mem_cons.mpr (Or.inr (hm ▸ he))
    · intro z hz
      rcases List.mem_cons.mp hz with rfl | hz
      · exact hm ▸ h1
      · exact hm ▸ h2 z hz

theorem listMax_concat_none (l : List ℝ) (x : ℝ) (h : listMax l = none) :
    listMax (l ++ [x]) = some x := by
  rw [(listMax_eq_none_iff l).mp h]
  rfl

theorem listMax_concat_some (l : List ℝ) (x m : ℝ) (h : listMax l = some m) :
    listMax (l ++ [x]) = some (max m x) := by
  cases l with
  | nil => cases h
  | cons y ys =>
    have hm : ys.foldl max y = m := Option.some.inj h
    rw [List.cons_append]
    show some ((ys ++ [x]).foldl max y) = some (max m x)
    rw [List.foldl_append, hm]
    rfl

theorem qualSims_concat (profile : List ℝ) (thr : ℝ) (p : ℕ)
    (fs : List FaceRow) (f : FaceRow) :
    qualSims profile thr p (fs ++ [f])
      = qualSims profile thr p fs ++
        (if f.photoId = p ∧ thr ≤ compute_similarity profile f.embedding
          then [compute_similarity profile f.embedding] else []) := by
  rw [qualSims, qualSims, List.filter_append, List.map_append]
  congr 1
  by_cases h1 : f.photoId = p
  · by_cases h2 : thr ≤ compute_similarity profile f.embedding
    · simp [List.filter, h1, h2]
    · simp [List.filter, h1, h2]
  · simp [List.filter, h1]

theorem scoreByPhoto_concat (profile : List ℝ) (thr : ℝ) (l : List FaceRow)
    (f : FaceRow) :
    scoreByPhoto profile thr (l ++ [f])
      = scoreStep profile thr (scoreByPhoto profile thr l) f := by
  rw [scoreByPhoto, List.foldl_concat]
  rfl

theorem scoreStep_of_below (profile : List ℝ) (thr : ℝ) (acc : ℕ → Option ℝ)
    (f : FaceRow) (hsim : ¬ thr ≤ compute_similarity profile f.embedding)
    (p : ℕ) : scoreStep profile thr acc f p = acc p := by
  rw [scoreStep]
  simp only [if_neg hsim]

theorem scoreStep_of_none (profile : List ℝ) (thr : ℝ) (acc : ℕ → Option ℝ)
    (f : FaceRow) (hsim : thr ≤ compute_similarity profile f.embedding)
    (hacc : acc f.photoId = none) (p : ℕ) :
    scoreStep profile thr acc f p
      = if p = f.photoId then some (compute_similarity profile f.embedding)
        else acc p := by
  rw [scoreStep]
  simp only [hacc, if_pos hsim]

theorem scoreStep_of_beat (profile : List ℝ) (thr : ℝ) (acc : ℕ → Option ℝ)
    (f : FaceRow) (s0 : ℝ)
    (hsim : thr ≤ compute_similarity profile f.embedding)
    (hacc : acc f.photoId = some s0)
    (hlt : s0 < compute_similarity profile f.embedding) (p : ℕ) :
    scoreStep profile thr acc f p
      = if p = f.photoId then some (compute_similarity profile f.embedding)
        else acc p := by
  rw [scoreStep]
  simp only [hacc, if_pos hsim, if_pos hlt]

theorem scoreStep_of_kept (profile : List ℝ) (thr : ℝ) (acc : ℕ → Option ℝ)
    (f : FaceRow) (s0 : ℝ)
    (hsim : thr ≤ compute_similarity profile f.embedding)
    (hacc : acc f.photoId = some s0)
    (hlt : ¬ s0 < compute_similarity profile f.embedding) (p : ℕ) :
    scoreStep profile thr acc f p = acc p := by
  rw [scoreStep]
  simp only [hacc, if_pos hsim, if_neg hlt]

theorem scoreByPhoto_eq_listMax (profile : List ℝ) (thr : ℝ)
    (fs : List FaceRow) :
    ∀ p, scoreByPhoto profile thr fs p
      = listMax (qualSims profile thr p fs) := by
  induction fs using List.reverseRecOn with
  | nil => intro p; rfl
  | append_singleton l f ih =>
    intro p
    rw [scoreByPhoto_concat, qualSims_concat]
    by_cases hsim : thr ≤ compute_similarity profile f.embedding
    · cases hacc : scoreByPhoto profile thr l f.photoId with
      | none =>
        rw [scoreStep_of_none profile thr _ f hsim hacc p]
        by_cases hp : f.photoId = p
        · subst hp
          rw [if_pos rfl, if_pos ⟨rfl, hsim⟩]
          have hqual : qualSims profile thr f.photoId l = [] :=
            (listMax_eq_none_iff _).mp ((ih f.photoId) ▸ hacc)
          rw [hqual, List.nil_append]
          rfl
        · rw [if_neg fun he => hp he.symm,
            if_neg fun hc => hp hc.1, List.append_nil]
          exact ih p
      | some s0 =>
        have hls : listMax (qualSims profile thr f.photoId l) = some s0 :=
          (ih f.photoId) ▸ hacc
        by_cases hlt : s0 < compute_similarity profile f.embedding
        · rw [scoreStep_of_beat profile thr _ f s0 hsim hacc hlt p]
          by_cases hp : f.photoId = p
          · subst hp
            rw [if_pos rfl, if_pos ⟨rfl, hsim⟩,
              listMax_concat_some _ _ _ hls, max_eq_right hlt.le]
          · rw [if_neg fun he => hp he.symm,
              if_neg fun hc => hp hc.1, List.append_nil]
            exact ih p
        · rw [scoreStep_of_kept profile thr _ f s0 hsim hacc hlt p]
          by_cases hp : f.photoId = p
          · subst hp
            rw [if_pos ⟨rfl, hsim⟩, listMax_concat_some _ _ _ hls,
              max_eq_left (not_lt.mp hlt), hacc]
          · rw [if_neg fun hc => hp hc.1, List.append_nil]
            exact ih p
    · rw [scoreStep_of_below profile thr _ f hsim p,
        if_neg fun hc => hsim hc.2, List.append_nil]
      exact ih p

theorem scoreByPhoto_some_spec (profile : List ℝ) (thr : ℝ)
    (fs : List FaceRow) (p : ℕ) (m : ℝ)
    (h : scoreByPhoto profile thr fs p = some m) :
    (∃ f ∈ fs, f.photoId = p ∧ thr ≤ compute_similarity profile f.embedding
      ∧ compute_similarity profile f.embedding = m)
  ∧ ∀ f ∈ fs, f.photoId = p →
      thr ≤ compute_similarity profile f.embedding →
      compute_similarity profile f.embedding ≤ m := by
  rw [scoreByPhoto_eq_listMax] at h
  obtain ⟨hmem, hbound⟩ := listMax_spec _ _ h
  rw [qualSims] at hmem
  constructor
  · obtain ⟨f, hf, hfm⟩ := List.mem_map.mp hmem
    have hff := List.mem_filter.mp hf
    have hb := hff.2
    simp only [Bool.and_eq_true, decide_eq_true_eq] at hb
    exact ⟨f, hff.1, hb.1, hb.2, hfm⟩
  · intro f hf hfp hfs
    apply hbound
    rw [qualSims]
    exact List.mem_map.mpr
      ⟨f, List.mem_filter.mpr ⟨hf, by simp [hfp, hfs]⟩, rfl⟩

theorem find_photos_eq (profile : List ℝ) (faces : List FaceRow)
    (photoTable : List ℕ) (thr : ℝ) (limit : ℕ) :
    find_photos_matching_profile profile faces photoTable thr limit
      = ((photoTable.filter fun p =>
            (scoreByPhoto profile thr (faces.take 5000) p).isSome).take
          limit).mergeSort fun p q =>
            (scoreByPhoto profile thr (faces.take 5000) q).getD 0
              ≤ (scoreByPhoto profile thr (faces.take 5000) p).getD 0 := rfl

/-- C3 (amended): `find_photos_matching_profile` scans at most the first
5000 face rows; every returned photo has a scanned face whose similarity to
the profile reaches the threshold; each matched photo's recorded score is
the maximum similarity over its qualifying scanned faces; and the returned
list is the first `limit` matched photos in photo-table order — not
necessarily the overall top-scoring ones — sorted descending by recorded
score and of length at most `limit`. -/
theorem find_photos_matching_profile_props (profile : List ℝ)
    (faces : List FaceRow) (photoTable : List ℕ) (thr : ℝ) (limit : ℕ) :
    (find_photos_matching_profile profile faces photoTable thr limit).length
      ≤ limit
  ∧ (find_photos_matching_profile profile faces photoTable thr limit).Perm
      ((photoTable.filter fun p =>
          (scoreByPhoto profile thr (faces.take 5000) p).isSome).take limit)
  ∧ (find_photos_matching_profile profile faces photoTable thr limit).Pairwise
      (fun p q => (scoreByPhoto profile thr (faces.take 5000) q).getD 0
        ≤ (scoreByPhoto profile thr (faces.take 5000) p).getD 0)
  ∧ (∀ p ∈ find_photos_matching_profile profile faces photoTable thr limit,
      ∃ f ∈ faces.take 5000, f.photoId = p
        ∧ thr ≤ compute_similarity profile f.embedding)
  ∧ ∀ p m, scoreByPhoto profile thr (faces.take 5000) p = some m →
      (∃ f ∈ faces.take 5000, f.photoId = p
        ∧ thr ≤ compute_similarity profile f.embedding
        ∧ compute_similarity profile f.embedding = m)
    ∧ ∀ f ∈ faces.take 5000, f.photoId = p →
        thr ≤ compute_similarity profile f.embedding →
        compute_similarity profile f.embedding ≤ m := by
  have hperm :
      (find_photos_matching_profile profile faces photoTable thr limit).Perm
        ((photoTable.filter fun p =>
            (scoreByPhoto profile thr (faces.take 5000) p).isSome).take
          limit) := by
    rw [find_photos_eq]
    exact List.mergeSort_perm _ _
  refine ⟨?_, hperm, ?_, ?_, fun p m h => scoreByPhoto_some_spec _ _ _ _ _ h⟩
  · rw [hperm.length_eq]
    exact List.length_take_le _ _
  · rw [find_photos_eq]
    have hs := @List.sorted_mergeSort ℕ
      (fun p q : ℕ =>
        decide ((scoreByPhoto profile thr (faces.take 5000) q).getD 0
          ≤ (scoreByPhoto profile thr (faces.take 5000) p).getD 0))
      (fun a b c hab hbc => by
        simp only [decide_eq_true_eq] at hab hbc ⊢
        exact le_trans hbc hab)
      (fun a b => by
        simp only [Bool.or_eq_true, decide_eq_true_eq]
        exact le_total _ _)
      ((photoTable.filter fun p =>
          (scoreByPhoto profile thr (faces.take 5000) p).isSome).take limit)
    exact hs.imp fun hab => by simpa using hab
  · intro p hp
    have hkept := hperm.mem_iff.mp hp
    have hfil := List.mem_filter.mp (List.take_subset _ _ hkept)
    obtain ⟨m, hm⟩ := Option.isSome_iff_exists.mp (by simpa using hfil.2)
    obtain ⟨⟨f, hf, hfp, hfs, _⟩, _⟩ :=
      scoreByPhoto_some_spec profile thr (faces.take 5000) p m hm
    exact ⟨f, hf, hfp, hfs⟩

theorem v34_length : v34.length = 512 := by
  rw [v34, List.length_cons, List.length_cons, List.length_replicate]

theorem sumSq_v34 : sumSq v34 = 25 := by
  rw [v34, sumSq_cons, sumSq_cons]
  rw [show sumSq (List.replicate 510 (0 : ℝ)) = 0 from sumSq_replicate_zero 510]
  norm_num

theorem norm2_v34 : norm2 v34 = 5 := by
  rw [norm2, sumSq_v34, show (25 : ℝ) = 5 ^ 2 by norm_num,
    Real.sqrt_sq (by norm_num : (0 : ℝ) ≤ 5)]

theorem dot_e1_v34 : dot e1 v34 = 3 := by
  rw [e1, v34, dot_cons]
  rw [show dot (List.replicate 511 (0 : ℝ)) (4 :: List.replicate 510 0) = 0
    from dot_replicate_zero_left 511 _]
  norm_num

theorem sim_e1_e1 : compute_similarity e1 e1 = 1 := by
  rw [compute_similarity, if_neg (by rw [e1_length]; norm_num),
    if_neg (by rw [norm2_e1]; norm_num), dot_self_eq_sumSq, sumSq_e1,
    norm2_e1]
  norm_num

theorem sim_e1_v34 : compute_similarity e1 v34 = 3 / 5 := by
  rw [compute_similarity, if_neg (by rw [e1_length, v34_length]; norm_num),
    if_neg (by rw [norm2_e1, norm2_v34]; norm_num), dot_e1_v34, norm2_e1,
    norm2_v34]
  norm_num

theorem sb_cex : scoreByPhoto e1 0.45 (cexFaces.take 5000)
    = fun p => if p = 2 then some 1
        else if p = 1 then some ((3 : ℝ) / 5) else none := by
  have htake : cexFaces.take 5000 = cexFaces :=
    List.take_of_length_le (by norm_num [cexFaces])
  have h1 : scoreStep e1 0.45 (fun _ => none) ⟨1, v34⟩
      = fun p => if p = 1 then some ((3 : ℝ) / 5) else none := by
    funext p
    rw [scoreStep_of_none e1 0.45 _ _ (by rw [sim_e1_v34]; norm_num) rfl p]
    rw [sim_e1_v34]
  have h2 : scoreStep e1 0.45
        (fun p => if p = 1 then some ((3 : ℝ) / 5) else none) ⟨2, e1⟩
      = fun p => if p = 2 then some 1
          else if p = 1 then some ((3 : ℝ) / 5) else none := by
    funext p
    rw [scoreStep_of_none e1 0.45 _ _ (by rw [sim_e1_e1]; norm_num)
      (by norm_num) p]
    rw [sim_e1_e1]
  rw [htake, show cexFaces = [⟨1, v34⟩, ⟨2, e1⟩] from rfl, scoreByPhoto,
    List.foldl_cons, List.foldl_cons, List.foldl_nil, h1, h2]

/-- C3 counterexample: with threshold 0.45 and limit 1, photo 2 carries the
best-matching face (similarity 1) and photo 1 a weaker match (similarity
3/5), yet the call returns `[1]`: the photo query truncates to `limit` in
photo-table order before the sort, so a photo with a qualifying face is
dropped and the kept photo is not the top-scoring one. -/
theorem find_photos_limit_cex :
    find_photos_matching_profile e1 cexFaces [1, 2] 0.45 1 = [1]
  ∧ (⟨2, e1⟩ : FaceRow) ∈ cexFaces
  ∧ (0.45 : ℝ) ≤ compute_similarity e1 e1
  ∧ compute_similarity e1 v34 < compute_similarity e1 e1
  ∧ 2 ∉ find_photos_matching_profile e1 cexFaces [1, 2] 0.45 1 := by
  have hres : find_photos_matching_profile e1 cexFaces [1, 2] 0.45 1 = [1] := by
    rw [find_photos_eq, sb_cex]
    norm_num [List.filter]
  refine ⟨hres, by simp [cexFaces], ?_, ?_, ?_⟩
  · rw [sim_e1_e1]; norm_num
  · rw [sim_e1_e1, sim_e1_v34]; norm_num
  · rw [hres]; simp

end ImageNerve

end
